import Mathlib

/-!
Verification development for talos_order.py (talos-image-download).

The Python source is shallowly embedded below.  Pure helpers become Lean
functions; effectful code (HTTP, filesystem, subprocesses) is modelled by
passing an explicit environment (`Env`) describing the responses of the
external world, an explicit filesystem map (`FS`), and an explicit event
trace (`List Event`) recording the observable side effects.  Exceptions
become `Except Err` values where `Err` carries the Python exception class
name and message.  Wall-clock timestamps and YAML serialisation of the
manifest document are outside the model (the manifest content is modelled
structurally).
-/

deriving instance DecidableEq for Except

namespace TalosOrder

/-! ## Basic string helpers (modelling Python str operations on char lists) -/

/-- Python `s.lower()` restricted to ASCII (enough for the product check). -/
def lowerStr (s : String) : String := String.mk (s.data.map Char.toLower)

/-- Python `s.startswith(t)`. -/
def startsWithStr (s t : String) : Bool := t.data.isPrefixOf s.data

/-- Python `s.endswith(t)`. -/
def endsWithStr (s t : String) : Bool := t.data.isSuffixOf s.data

/-- Python `s.strip()` (whitespace strip both ends). -/
def pyStrip (s : String) : String :=
  String.mk (((s.data.dropWhile Char.isWhitespace).reverse.dropWhile Char.isWhitespace).reverse)

/-- Python `s.lstrip("v")`: drop all leading `v` characters. -/
def lstripV (s : String) : String := String.mk (s.data.dropWhile (· = 'v'))

/-- Python `s.rstrip("/")`: drop all trailing slashes. -/
def rstripSlash (s : String) : String :=
  String.mk ((s.data.reverse.dropWhile (· = '/')).reverse)

/-- Python `s.split(c, 1)` for a single character separator: the part before
the first occurrence, and (when the separator occurs) the rest. -/
def splitFirst (s : String) (c : Char) : String × Option String :=
  let front := s.data.takeWhile (· ≠ c)
  match s.data.dropWhile (· ≠ c) with
  | [] => (String.mk front, none)
  | _ :: tail => (String.mk front, some (String.mk tail))

/-- Split a char list on every occurrence of a separator character
(Python `s.split(c)`, which never drops empty fields). -/
def splitAllAux (c : Char) : List Char → List Char → List (List Char)
  | [], acc => [acc.reverse]
  | x :: xs, acc => if x = c then acc.reverse :: splitAllAux c xs [] else splitAllAux c xs (x :: acc)

/-- Python `s.split(c)` for a single-character separator. -/
def splitAll (s : String) (c : Char) : List String :=
  (splitAllAux c s.data []).map String.mk

/-- Python `os.path.join(a, b)` for the cases arising here. -/
def pathJoin (a b : String) : String :=
  if startsWithStr b "/" then b
  else if endsWithStr a "/" then a ++ b
  else a ++ "/" ++ b

/-- Python `os.path.dirname`: everything before the last slash
(empty when the path has no slash). -/
def dirname (s : String) : String :=
  match splitAll s '/' with
  | [] => ""
  | [_] => ""
  | parts => String.intercalate "/" parts.dropLast

/-- Python `url.rstrip("/").split("/")[-1]`: the last path component. -/
def lastComponent (s : String) : String :=
  ((splitAll (rstripSlash s) '/').getLast?).getD ""

/-- Python `re.sub(r"\.xz$", "", s)`: strip one trailing `.xz`. -/
def stripXzSuffixStr (s : String) : String :=
  if endsWithStr s ".xz" then String.mk (s.data.take (s.data.length - 3)) else s

/-- Value of a nonempty all-digit string (`int()` on a `\d+` regex group;
ASCII digits modelled). -/
def parseDigits (s : String) : Option Nat :=
  if s.data ≠ [] ∧ s.data.all Char.isDigit then
    some (s.data.foldl (fun n c => n * 10 + (c.toNat - 48)) 0)
  else none

/-! ## Semantic version key (`_semver_key`, lines 95-109, and its duplicate
`_parse_semver_for_sort`, lines 235-245) -/

/-- Regex `^(\d+)\.(\d+)\.(\d+)$` plus `int()` on the three groups. -/
def parseCore (s : String) : Option (Nat × Nat × Nat) :=
  match splitAll s '.' with
  | [a, b, c] =>
    match parseDigits a, parseDigits b, parseDigits c with
    | some x, some y, some z => some (x, y, z)
    | _, _, _ => none
  | _ => none

/-- The Python sort key tuple `(major, minor, patch, preflag, pre)`. -/
structure SemKey where
  major : Nat
  minor : Nat
  patch : Nat
  preflag : Int
  pre : String
deriving DecidableEq, Repr

/-- Python code-point lexicographic `<` on char lists. -/
def charsLt : List Char → List Char → Bool
  | [], [] => false
  | [], _ :: _ => true
  | _ :: _, [] => false
  | a :: as_, b :: bs => if a < b then true else if b < a then false else charsLt as_ bs

/-- Python `<` on strings (code-point lexicographic). -/
def strLt (a b : String) : Bool := charsLt a.data b.data

/-- Python tuple `<` on the sort key (lexicographic component-wise). -/
def keyLtB (a b : SemKey) : Bool :=
  if a.major < b.major then true
  else if b.major < a.major then false
  else if a.minor < b.minor then true
  else if b.minor < a.minor then false
  else if a.patch < b.patch then true
  else if b.patch < a.patch then false
  else if a.preflag < b.preflag then true
  else if b.preflag < a.preflag then false
  else strLt a.pre b.pre

/-- Core part of a tag: `tag.lstrip("v").split("-", 1)[0]`. -/
def coreOf (tag : String) : String := (splitFirst (lstripV tag) '-').1

/-- Pre-release part of a tag: `tag.lstrip("v").split("-", 1)[1]` when present. -/
def preOf (tag : String) : Option String := (splitFirst (lstripV tag) '-').2

/-- `_semver_key` (lines 95-109).  Note the source quirk: in the malformed-core
branch the preflag uses truthiness (`-1 if pre else 0`, so an empty pre-release
string gives 0), while the well-formed branch tests `pre is None`. -/
def semver_key (tag : String) : SemKey :=
  let core := coreOf tag
  let pre := preOf tag
  match parseCore core with
  | none =>
    { major := 0, minor := 0, patch := 0
      preflag := (match pre with | some p => if p ≠ "" then -1 else 0 | none => 0)
      pre := pre.getD "" }
  | some (a, b, c) =>
    { major := a, minor := b, patch := c
      preflag := (match pre with | some _ => -1 | none => 0)
      pre := pre.getD "" }

/-- `_parse_semver_for_sort` (lines 235-245): a byte-for-byte duplicate of
`_semver_key` in the source. -/
def parse_semver_for_sort (tag : String) : SemKey :=
  let core := coreOf tag
  let pre := preOf tag
  match parseCore core with
  | none =>
    { major := 0, minor := 0, patch := 0
      preflag := (match pre with | some p => if p ≠ "" then -1 else 0 | none => 0)
      pre := pre.getD "" }
  | some (a, b, c) =>
    { major := a, minor := b, patch := c
      preflag := (match pre with | some _ => -1 | none => 0)
      pre := pre.getD "" }

/-! ## Stable descending sort (Python `sorted(xs, key=k, reverse=True)`).
CPython's sort is stable; with `reverse=True` it yields the descending order
in which elements with equal keys keep their original relative order.  A
stable insertion sort from the right computes the same list. -/

/-- Insert into a descending-sorted list, before the first element that is
not strictly greater (so earlier-listed elements win ties). -/
def insertDescBy (ltB : α → α → Bool) (a : α) : List α → List α
  | [] => [a]
  | b :: bs => if ltB a b then b :: insertDescBy ltB a bs else a :: b :: bs

/-- Stable descending sort by a strict-less test on elements. -/
def sortByDesc (ltB : α → α → Bool) : List α → List α
  | [] => []
  | x :: xs => insertDescBy ltB x (sortByDesc ltB xs)

/-! ## Asset URL construction (`build_asset_url`, lines 156-178) -/

/-- Python exception value: class name and message. -/
structure Err where
  cls : String
  msg : String
deriving DecidableEq, Repr

/-- `build_asset_url` (lines 156-178). -/
def build_asset_url (schematic_id version platform image_format arch : String)
    (secureboot : Bool) : Except Err String :=
  let base := "https://factory.talos.dev/image/" ++ schematic_id ++ "/" ++ version
  if platform = "nocloud" then
    if image_format = "iso" then
      .ok (base ++ "/" ++ ("nocloud-" ++ arch ++ (if secureboot then "-secureboot" else "") ++ ".iso"))
    else if image_format = "raw" ∨ image_format = "raw.xz" ∨ image_format = "rawxz" then
      .ok (base ++ "/" ++ ("nocloud-" ++ arch ++ (if secureboot then "-secureboot" else "") ++ ".raw.xz"))
    else
      .error ⟨"ValueError", "unsupported image_format for nocloud (use iso or raw.xz)"⟩
  else if platform = "metal" ∧ image_format = "iso" then
    .ok (base ++ "/metal-" ++ arch ++ ".iso")
  else
    .error ⟨"ValueError", "unsupported platform/image_format combination"⟩

/-! ## Cache cleanup planning (`plan_cache_cleanup`, lines 247-273) -/

/-- Regex `^talos-(v[^-]+)-(.*)$`: returns (version tag with the leading `v`,
artifact tail after the following hyphen). -/
def matchTalosFile (name : String) : Option (String × String) :=
  if startsWithStr name "talos-v" then
    let rest := name.data.drop 7
    let x := rest.takeWhile (· ≠ '-')
    match x, rest.dropWhile (· ≠ '-') with
    | [], _ => none
    | _, [] => none
    | _, _ :: tail => some ("v" ++ String.mk x, String.mk tail)
  else none

/-- Python dict `groups.setdefault(tail, []).append(v)`: keys keep first
insertion order, values keep append order. -/
def addToGroup (groups : List (String × List (String × String))) (tail : String)
    (v : String × String) : List (String × List (String × String)) :=
  match groups with
  | [] => [(tail, [v])]
  | (k, vs) :: rest =>
    if k = tail then (k, vs ++ [v]) :: rest else (k, vs) :: addToGroup rest tail v

/-- One step of the grouping scan of `plan_cache_cleanup`: skip `.sha256`
sidecars and non-matching names, otherwise group by tail. -/
def scanStep (gs : List (String × List (String × String))) (name : String) :
    List (String × List (String × String)) :=
  if endsWithStr name ".sha256" then gs
  else match matchTalosFile name with
    | none => gs
    | some (ver, tail) => addToGroup gs tail (ver, name)

/-- The grouping scan of `plan_cache_cleanup`: skip `.sha256` sidecars, match
the filename pattern, and group (version tag, filename) pairs by tail. -/
def scanGroups (entries : List String) : List (String × List (String × String)) :=
  entries.foldl scanStep []

/-- `plan_cache_cleanup` (lines 247-273).  `entries` is the `os.listdir`
snapshot of the cache directory; the `os.path.exists` check on a sidecar is
therefore membership of the sidecar name in that snapshot. -/
def plan_cache_cleanup (cache_dir : String) (entries : List String)
    (keep_versions : Int) : List String :=
  if keep_versions ≤ 0 then []
  else
    (scanGroups entries).foldl (fun acc g =>
      let items_sorted := sortByDesc
        (fun a b => keyLtB (parse_semver_for_sort a.1) (parse_semver_for_sort b.1)) g.2
      let victims := items_sorted.drop keep_versions.toNat
      victims.foldl (fun acc2 v =>
        let victim := pathJoin cache_dir v.2
        let sha := victim ++ ".sha256"
        acc2 ++ [victim] ++ (if entries.contains (v.2 ++ ".sha256") then [sha] else [])) acc) []

/-! ## Effect model

The external world (HTTP endpoints, tool availability, remote hosts) is an
explicit `Env`; the local filesystem is an association list from path to
content (`FS`, last write first); observable side effects are recorded in an
event trace.  File contents are byte lists; the sha256 digest is modelled by
the environment's `hash` function (a deterministic function of the bytes,
which is all the claims use). -/

/-- File content: a list of byte values. -/
abbrev Blob := List Nat

/-- Bytes of a text file written from a string. -/
def strBlob (s : String) : Blob := s.data.map Char.toNat

/-- The local filesystem: newest write first. -/
abbrev FS := List (String × Blob)

/-- Read a file (newest write wins). -/
def fsLookup (fs : FS) (p : String) : Option Blob :=
  match fs with
  | [] => none
  | (q, b) :: rest => if q = p then some b else fsLookup rest p

/-- Write a file. -/
def fsWrite (fs : FS) (p : String) (b : Blob) : FS := (p, b) :: fs

/-- Observable side effects of a run. -/
inductive Event
  | netGet (url : String)
  | netPost (url : String)
  | downloadEv (url : String) (path : String)
  | writeFile (path : String)
  | mkdirEv (path : String)
  | removeEv (path : String)
  | sshMkdir (host : String) (dir : String)
  | rsyncPush (host : String) (file : String)
deriving DecidableEq, Repr

/-- Events that mutate the filesystem, the remote build service, or remote
hosts.  `netGet` (read-only HTTP) and `mkdirEv` (directory creation with
`exist_ok=True`) are the non-mutating ones. -/
def Event.isMutating : Event → Bool
  | .netGet _ => false
  | .mkdirEv _ => false
  | _ => true

/-- GitHub latest-release endpoint URL. -/
def GITHUB_LATEST : String := "https://api.github.com/repos/siderolabs/talos/releases/latest"

/-- GitHub tag-listing endpoint URL. -/
def GITHUB_TAGS : String := "https://api.github.com/repos/siderolabs/talos/tags"

/-- Image Factory schematics endpoint URL. -/
def FACTORY_SCHEMATICS : String := "https://factory.talos.dev/schematics"

/-- Responses and capabilities of the external world, fixed for a run. -/
structure Env where
  /-- `tag_name` of the latest-release response (`none` when absent). -/
  latestTag : Option String
  /-- the `name` fields of the tag-listing response objects. -/
  tagNames : List (Option String)
  /-- `id` of the factory schematic response (`none` when absent). -/
  factoryId : Option String
  /-- whether GET of an artifact URL succeeds. -/
  fetchOk : String → Bool
  /-- bytes served at an artifact URL. -/
  blob : String → Blob
  /-- sha256 hexdigest as a function of file bytes. -/
  hash : Blob → String
  /-- `command -v rsync` succeeds. -/
  rsyncTool : Bool
  /-- `command -v ssh` succeeds. -/
  sshTool : Bool
  /-- python lzma module importable. -/
  haveLzma : Bool
  /-- external xz binary present. -/
  xzTool : Bool
  /-- xz decompression of a blob (`none` for corrupt input). -/
  decomp : Blob → Option Blob
  /-- per-host `ssh ... mkdir -p` exit ok, and its stderr. -/
  sshMkdirRes : String → Bool × String
  /-- per-host `rsync` exit ok, and its stderr. -/
  rsyncRes : String → Bool × String

/-! ## Version resolution (`resolve_version`, lines 111-141) -/

/-- Declarative version specification (`{type, value?, minor?}`). -/
structure VSpec where
  type : Option String := none
  value : Option String := none
  minor : Option String := none
deriving DecidableEq, Repr

/-- The `latest` branch of `resolve_version`: GET the latest-release endpoint
and read its tag. -/
def latest_branch (env : Env) : Except Err (String × String) × List Event :=
  match env.latestTag with
  | none => (.error ⟨"RuntimeError", "Failed to resolve latest version from GitHub"⟩,
             [Event.netGet GITHUB_LATEST])
  | some tag =>
    if tag = "" then
      (.error ⟨"RuntimeError", "Failed to resolve latest version from GitHub"⟩,
       [Event.netGet GITHUB_LATEST])
    else (.ok (tag, "latest"), [Event.netGet GITHUB_LATEST])

/-- `resolve_version` (lines 111-141): returns `(version_tag, source)` and the
trace of HTTP requests made. -/
def resolve_version (env : Env) (spec : Option VSpec) :
    Except Err (String × String) × List Event :=
  let s := spec.getD {}
  let t := s.type.getD "latest"
  if t = "exact" then
    match s.value with
    | none => (.error ⟨"ValueError", "version.type=exact requires version.value"⟩, [])
    | some v =>
      if v = "" then (.error ⟨"ValueError", "version.type=exact requires version.value"⟩, [])
      else (.ok (v, "exact"), [])
  else if t = "latest" then latest_branch env
  else if t = "latest-in-minor" then
    match s.minor with
    | none => (.error ⟨"ValueError", "version.type=latest-in-minor requires version.minor"⟩, [])
    | some m =>
      if m = "" then
        (.error ⟨"ValueError", "version.type=latest-in-minor requires version.minor"⟩, [])
      else
        let matching := env.tagNames.filterMap (fun n =>
          let nm := n.getD ""
          if startsWithStr nm (m ++ ".") then some nm else none)
        if matching.isEmpty then
          (.error ⟨"RuntimeError", "No tags found for minor " ++ m⟩, [Event.netGet GITHUB_TAGS])
        else
          let best := ((sortByDesc (fun a b => keyLtB (semver_key a) (semver_key b)) matching).head?).getD ""
          (.ok (best, "latest-in-minor"), [Event.netGet GITHUB_TAGS])
  else (.error ⟨"ValueError", "Unknown version.type: " ++ t⟩, [])

/-- `post_schematic_and_get_id` (lines 145-154): POST the customization to the
factory and read the returned id. -/
def post_schematic_and_get_id (env : Env) : Except Err String × List Event :=
  match env.factoryId with
  | none => (.error ⟨"RuntimeError", "Factory did not return an ID"⟩,
             [Event.netPost FACTORY_SCHEMATICS])
  | some i => (.ok i, [Event.netPost FACTORY_SCHEMATICS])

/-! ## Download, checksum and sidecar (lines 57-63, 77-82, 394-405)

`http_download` streams to a `.part` sibling and atomically renames; the model
collapses that to one write of the destination (a failed GET leaves the
filesystem unchanged, as the rename never happens). -/

/-- The download-if-needed / checksum / sidecar-write fragment of
`process_positions` (lines 394-405): returns `(done flag, sha256, size)`, the
updated filesystem and the event trace. -/
def fetchVerify (env : Env) (url local_path : String) (fs : FS) :
    Except Err (Bool × String × Nat) × FS × List Event :=
  let cached := match fsLookup fs local_path with
    | some b => decide (0 < b.length)
    | none => false
  if cached then
    match fsLookup fs local_path with
    | some b =>
      let sha := env.hash b
      (.ok (false, sha, b.length),
       fsWrite fs (local_path ++ ".sha256") (strBlob (sha ++ "\n")),
       [Event.writeFile (local_path ++ ".sha256")])
    | none => (.error ⟨"FileNotFoundError", local_path⟩, fs, [])
  else
    if env.fetchOk url then
      let b := env.blob url
      let fs1 := fsWrite fs local_path b
      let sha := env.hash b
      (.ok (true, sha, b.length),
       fsWrite fs1 (local_path ++ ".sha256") (strBlob (sha ++ "\n")),
       [Event.mkdirEv (dirname local_path), Event.downloadEv url local_path,
        Event.writeFile local_path, Event.writeFile (local_path ++ ".sha256")])
    else
      (.error ⟨"HTTPError", url⟩, fs,
       [Event.mkdirEv (dirname local_path), Event.downloadEv url local_path])

/-- `decompress_raw_xz` (lines 182-207): returns the decompressed bytes, the
updated filesystem and the trace. -/
def decompress_raw_xz (env : Env) (src dst : String) (fs : FS) :
    Except Err Blob × FS × List Event :=
  let trM : List Event := [Event.mkdirEv (dirname dst)]
  if env.haveLzma then
    match fsLookup fs src with
    | none => (.error ⟨"FileNotFoundError", src⟩, fs, trM)
    | some b =>
      match env.decomp b with
      | none => (.error ⟨"LZMAError", "Invalid input"⟩, fs, trM)
      | some d => (.ok d, fsWrite fs dst d, trM ++ [Event.writeFile dst])
  else if env.xzTool then
    match fsLookup fs src with
    | none => (.error ⟨"RuntimeError", "xz failed: cannot open input"⟩, fs, trM)
    | some b =>
      match env.decomp b with
      | none => (.error ⟨"RuntimeError", "xz failed"⟩, fs, trM)
      | some d => (.ok d, fsWrite fs dst d, trM ++ [Event.writeFile dst])
  else
    (.error ⟨"RuntimeError", "Cannot decompress: python lzma unavailable and xz not installed"⟩,
     fs, trM)

/-! ## Push (`ensure_tools_for_push`, `push_file_to_hosts`, lines 211-229) -/

/-- `ensure_tools_for_push` (lines 211-216): rsync is checked before ssh. -/
def ensure_tools_for_push (env : Env) : Bool × String :=
  if ¬ env.rsyncTool then (false, "Missing dependency: rsync")
  else if ¬ env.sshTool then (false, "Missing dependency: ssh")
  else (true, "")

/-- One push target host. -/
structure HostSpec where
  host : String
  iso_dir : Option String := none
deriving DecidableEq, Repr

/-- Per-host push outcome (`{host, status, stderr}`). -/
structure HostResult where
  host : String
  status : String
  stderr : String
deriving DecidableEq, Repr

/-- `push_file_to_hosts` (lines 218-229): each host independently gets a remote
mkdir then an rsync copy; mkdir failure skips the copy for that host only. -/
def push_file_to_hosts (env : Env) (local_file : String) (hosts : List HostSpec)
    (default_iso_dir : String) : List HostResult × List Event :=
  match hosts with
  | [] => ([], [])
  | h :: rest =>
    let dest_dir := h.iso_dir.getD default_iso_dir
    let mk := env.sshMkdirRes h.host
    let (res, tr) :=
      if ¬ mk.1 then
        (⟨h.host, "mkdir-failed", mk.2⟩, [Event.sshMkdir h.host dest_dir])
      else
        let rs := env.rsyncRes h.host
        (⟨h.host, if rs.1 then "ok" else "rsync-failed", rs.2⟩,
         [Event.sshMkdir h.host dest_dir, Event.rsyncPush h.host local_file])
    let (rs2, tr2) := push_file_to_hosts env local_file rest default_iso_dir
    (res :: rs2, tr ++ tr2)

/-! ## Work items, configuration, manifest entries -/

/-- Push configuration of one item (`it["push"]`). -/
structure PushCfg where
  enabled : Option Bool := none
  hosts : List HostSpec := []
  prefer_decompressed : Option Bool := none
deriving DecidableEq, Repr

/-- Customization payload: only the systemExtensions list is distinguished
(the body is otherwise opaque; the factory answers through `Env.factoryId`). -/
structure Customization where
  systemExtensions : List String := []
deriving DecidableEq, Repr

/-- One order position (`it`).  `Option` fields model absent mapping keys. -/
structure Item where
  name : Option String := none
  product : Option String := none
  arch : Option String := none
  version : Option VSpec := none
  schematic_id : Option String := none
  customization : Option Customization := none
  platform : Option String := none
  secureboot : Bool := false
  image_format : Option String := none
  decompress_raw : Bool := false
  push : Option PushCfg := none
deriving DecidableEq, Repr

/-- Push defaults from the config (`defaults["push"]`). -/
structure PushDefaults where
  enabled : Option Bool := none
  rsync_opts : Option String := none
  ssh_opts : Option String := none
  prefer_decompressed : Option Bool := none
deriving DecidableEq, Repr

/-- Global defaults from the config file. -/
structure Defaults where
  cache_dir : Option String := none
  proxmox_default_iso_dir : Option String := none
  arch : Option String := none
  push : Option PushDefaults := none
deriving DecidableEq, Repr

/-- Effective cache directory (`defaults.get("cache_dir", ...)`). -/
def cacheDirOf (cfg : Defaults) : String := cfg.cache_dir.getD "/var/cache/talos-sync"

/-- Download sub-record of a manifest entry. -/
structure DL where
  path : String
  done : Bool
  sha256 : Option String
  size_bytes : Option Nat
deriving DecidableEq, Repr

/-- Decompression sub-record of a manifest entry. -/
structure DecompRec where
  path : String
  sha256 : String
  size_bytes : Nat
deriving DecidableEq, Repr

/-- A successful manifest entry (the wall-clock `timestamp_utc` field is not
modelled). -/
structure OkEntry where
  name : String
  product : String
  platform : String
  arch : String
  version : String
  version_source : String
  secureboot : Bool
  image_format : String
  schematic_id : String
  url : String
  cache_dir : String
  download : DL
  decompressed : Option DecompRec
  pushed : List HostResult
  features : List String
deriving DecidableEq, Repr

/-- A manifest entry: success, a position error (`{name, status: error,
error}`), or the order-level error entry built in `main` (`{status: error,
error}`, which carries no name). -/
inductive Entry
  | okE (e : OkEntry)
  | posError (name : String) (error : String)
  | orderError (error : String)
deriving DecidableEq, Repr

/-- Python `it.get("name") or "<unnamed>"` (empty string is falsy). -/
def posName (it : Item) : String :=
  match it.name with
  | some s => if s = "" then "<unnamed>" else s
  | none => "<unnamed>"

/-- Python truthiness of an optional string (`if not schematic_id`). -/
def falsyS (o : Option String) : Bool :=
  match o with
  | none => true
  | some s => s = ""

/-- Lower-cased product equals talos (`(it.get("product") or "").lower()`). -/
def isTalosItem (it : Item) : Bool := lowerStr (it.product.getD "") = "talos"

/-! ## Processing one position (the body of the `for` loop of
`process_positions`, lines 342-431, without the exception handler) -/

/-- Outcome of one position before the item-boundary exception handler. -/
inductive Outcome
  | entry (e : OkEntry)
  | skipped
  | failed (err : Err)
deriving DecidableEq, Repr

/-- The schematic-id step (lines 352-360): use the given id, or in dry-run
substitute the placeholder, or POST to the factory. -/
def schematicStep (env : Env) (dry_run : Bool) (it : Item) :
    Except Err String × List Event :=
  if falsyS it.schematic_id then
    match it.customization with
    | none => (.error ⟨"ValueError", "missing schematic_id or customization"⟩, [])
    | some _ =>
      if dry_run then (.ok "<to-be-created>", [])
      else post_schematic_and_get_id env
  else (.ok (it.schematic_id.getD ""), [])

/-- One position's processing (lines 342-431): the pipeline
resolve -> schematic -> URL -> (dry-run cut) -> fetch/checksum ->
(decompress) -> (push), threading the filesystem and the event trace.
Any stage failure yields `Outcome.failed` with the raised exception. -/
def process_one (env : Env) (cfg : Defaults) (dry_run : Bool) (it : Item) (fs : FS) :
    Outcome × FS × List Event :=
  let cache_dir := cacheDirOf cfg
  let iso_dir_default := cfg.proxmox_default_iso_dir.getD "/var/lib/vz/template/iso"
  let pushd := cfg.push.getD {}
  let push_enabled_default := pushd.enabled.getD false
  let prefer_default := pushd.prefer_decompressed.getD false
  if ¬ isTalosItem it then (.skipped, fs, [])
  else
    let arch := it.arch.getD (cfg.arch.getD "amd64")
    match resolve_version env it.version with
    | (.error e, tr1) => (.failed e, fs, tr1)
    | (.ok (version, version_source), tr1) =>
      match schematicStep env dry_run it with
      | (.error e, tr2) => (.failed e, fs, tr1 ++ tr2)
      | (.ok schematic_id, tr2) =>
        let platform := it.platform.getD "nocloud"
        let secureboot := it.secureboot
        let image_format := it.image_format.getD "iso"
        match build_asset_url schematic_id version platform image_format arch secureboot with
        | .error e => (.failed e, fs, tr1 ++ tr2)
        | .ok url =>
          let basename := lastComponent url
          let local_path := pathJoin cache_dir ("talos-" ++ version ++ "-" ++ basename)
          let tr3 := tr1 ++ tr2 ++ [Event.mkdirEv (dirname local_path)]
          let entry0 : OkEntry :=
            { name := posName it, product := "talos", platform := platform
              arch := arch, version := version, version_source := version_source
              secureboot := secureboot, image_format := image_format
              schematic_id := schematic_id, url := url, cache_dir := cache_dir
              download := ⟨local_path, false, none, none⟩
              decompressed := none, pushed := []
              features := (it.customization.getD {}).systemExtensions }
          if dry_run then (.entry entry0, fs, tr3)
          else
            match fetchVerify env url local_path fs with
            | (.error e, fsF, trF) => (.failed e, fsF, tr3 ++ trF)
            | (.ok (done, sha, size), fs1, trF) =>
              let entry1 := { entry0 with download := ⟨local_path, done, some sha, some size⟩ }
              let tr4 := tr3 ++ trF
              let afterDecomp :=
                if (image_format = "raw.xz" ∨ image_format = "rawxz") ∧ it.decompress_raw then
                  let dpath := stripXzSuffixStr local_path
                  match decompress_raw_xz env local_path dpath fs1 with
                  | (.error e, fsD, trD) => (.error e, fsD, trD)
                  | (.ok d, fsD, trD) =>
                    let sha2 := env.hash d
                    let fsD2 := fsWrite fsD (dpath ++ ".sha256") (strBlob (sha2 ++ "\n"))
                    (.ok (some (⟨dpath, sha2, d.length⟩ : DecompRec)), fsD2,
                     trD ++ [Event.writeFile (dpath ++ ".sha256")])
                else ((Except.ok (none : Option DecompRec)), fs1, ([] : List Event))
              match afterDecomp with
              | (.error e, fsD, trD) => (.failed e, fsD, tr4 ++ trD)
              | (.ok dec, fsD, trD) =>
                let entry2 := { entry1 with decompressed := dec }
                let tr5 := tr4 ++ trD
                let pcfg := it.push.getD {}
                let push_enabled := pcfg.enabled.getD push_enabled_default
                let hosts := pcfg.hosts
                let prefer := pcfg.prefer_decompressed.getD prefer_default
                if push_enabled ∧ hosts ≠ [] then
                  let artifact :=
                    match dec with
                    | some d => if prefer then d.path else local_path
                    | none => local_path
                  let (res, trP) := push_file_to_hosts env artifact hosts iso_dir_default
                  (.entry { entry2 with pushed := res }, fsD, tr5 ++ trP)
                else (.entry entry2, fsD, tr5)

/-! ## The batch loop (`process_positions`, lines 317-443) -/

/-- The item-boundary exception handler (lines 433-441): a failed position
becomes an error entry carrying the position name and the exception class
and message; a skipped position contributes nothing. -/
def itemStep (env : Env) (cfg : Defaults) (dry_run : Bool) (it : Item) (fs : FS) :
    Option Entry × FS × List Event :=
  match process_one env cfg dry_run it fs with
  | (.entry e, fs', tr) => (some (.okE e), fs', tr)
  | (.skipped, fs', tr) => (none, fs', tr)
  | (.failed err, fs', tr) =>
    (some (.posError (posName it) ("position failed: " ++ err.cls ++ ": " ++ err.msg)), fs', tr)

/-- The `for it in positions` loop (lines 342-441). -/
def positionsLoop (env : Env) (cfg : Defaults) (dry_run : Bool) :
    List Item → FS → List Entry × FS × List Event
  | [], fs => ([], fs, [])
  | it :: rest, fs =>
    let s := itemStep env cfg dry_run it fs
    let r := positionsLoop env cfg dry_run rest s.2.1
    (s.1.toList ++ r.1, r.2.1, s.2.2 ++ r.2.2)

/-- Whether one item requests a push
(`it.get("push", {}).get("hosts") and it.get("push", {}).get("enabled", d)`). -/
def needPushItem (push_enabled_default : Bool) (it : Item) : Bool :=
  (¬ (it.push.getD {}).hosts.isEmpty) && ((it.push.getD {}).enabled.getD push_enabled_default)

/-- The `need_push` precondition scan over the whole batch (line 334). -/
def needPushB (push_enabled_default : Bool) (positions : List Item) : Bool :=
  positions.any (needPushItem push_enabled_default)

/-- Whether the tool precheck (lines 334-338) raises: push needed, not a dry
run, and a required tool missing. -/
def toolAbort (env : Env) (cfg : Defaults) (dry_run : Bool) (positions : List Item) : Bool :=
  needPushB ((cfg.push.getD {}).enabled.getD false) positions
    && !dry_run && !(ensure_tools_for_push env).1

/-- `process_positions` (lines 317-443): the cache-dir mkdir, the push-tool
precheck (which is the only exception that escapes), then the item loop. -/
def process_positions (env : Env) (cfg : Defaults) (dry_run : Bool)
    (positions : List Item) (fs : FS) : Except Err (List Entry) × FS × List Event :=
  let tr0 : List Event := [Event.mkdirEv (cacheDirOf cfg)]
  if toolAbort env cfg dry_run positions then
    (.error ⟨"RuntimeError", (ensure_tools_for_push env).2⟩, fs, tr0)
  else
    let r := positionsLoop env cfg dry_run positions fs
    (.ok r.1, r.2.1, tr0 ++ r.2.2)

/-! ## The order loop of `main` (lines 497-537) -/

/-- One order: id, customer and positions. -/
structure Order where
  orderid : Option String := none
  customer : Option String := none
  positions : List Item := []
deriving DecidableEq, Repr

/-- Per-order manifest document (metadata fields that are wall-clock or
config-echo are not modelled; the entry list is). -/
structure Manifest where
  orderid : String
  customer : String
  positions_count : Nat
  entries : List Entry
deriving DecidableEq, Repr

/-- `manifest_path_for_order` in its default configuration (lines 299-313,
final branch; the path-template and directory branches echo configuration and
are not modelled). -/
def manifest_path_for_order (orderid : String) : String :=
  "./manifest-" ++ orderid ++ ".yaml"

/-- The `for order in orders_list` loop of `main` (lines 497-537): an empty
orderid raises and aborts the run; a `process_positions` exception is caught
and becomes a single order-level error entry; a manifest is produced for
every order either way, and the loop continues.  (The pre-loop purge and the
post-loop retention pass of `main` are outside this function, as in the
source.) -/
def process_orders (env : Env) (cfg : Defaults) (dry_run : Bool) :
    List Order → FS → Except Err (List Manifest) × FS × List Event
  | [], fs => (.ok [], fs, [])
  | o :: rest, fs =>
    let orderid := pyStrip (o.orderid.getD "")
    if orderid = "" then
      (.error ⟨"ValueError", "Each order must have a non-empty orderid"⟩, fs, [])
    else
      let pr := process_positions env cfg dry_run o.positions fs
      let entries :=
        match pr.1 with
        | .ok es => es
        | .error e => [Entry.orderError ("order failed: " ++ e.cls ++ ": " ++ e.msg)]
      let mpath := manifest_path_for_order orderid
      let trM := [Event.mkdirEv (dirname mpath)]
        ++ (if dry_run then [] else [Event.writeFile mpath])
      let m : Manifest := ⟨orderid, o.customer.getD "", o.positions.length, entries⟩
      match process_orders env cfg dry_run rest pr.2.1 with
      | (.ok ms, fs', tr') => (.ok (m :: ms), fs', pr.2.2 ++ trM ++ tr')
      | (.error e, fs', tr') => (.error e, fs', pr.2.2 ++ trM ++ tr')

/-! ## Concrete test fixtures (used by witnesses and counterexamples) -/

/-- A fully-stocked external world: all endpoints answer, all tools present.
The hash function is an arbitrary deterministic function of the bytes. -/
def envW : Env where
  latestTag := some "v1.8.0"
  tagNames := [some "v1.7.0", some "v1.7.6", some "v1.7.1-beta.0"]
  factoryId := some "deadbeef"
  fetchOk := fun _ => true
  blob := fun _ => [7, 7, 7]
  hash := fun b => String.mk (List.replicate b.length 'x')
  rsyncTool := true
  sshTool := true
  haveLzma := true
  xzTool := false
  decomp := fun b => some (b ++ b)
  sshMkdirRes := fun _ => (true, "")
  rsyncRes := fun _ => (true, "")

/-- The same world with the rsync binary missing. -/
def envNoRsync : Env := { envW with rsyncTool := false }

/-- A position that requests a push to one host. -/
def itPushW : Item where
  name := some "p1"
  product := some "talos"
  version := some { type := some "exact", value := some "v1.8.0" }
  schematic_id := some "abc"
  push := some { enabled := some true, hosts := [{ host := "pve1" }] }

/-- A position with an invalid version specification (exact without value). -/
def itBadW : Item where
  name := some "bad"
  product := some "talos"
  version := some { type := some "exact" }
  schematic_id := some "abc"

/-- A well-formed position resolving the latest version, with a
customization and no prebuilt schematic id. -/
def itDryW : Item where
  name := some "d"
  product := some "talos"
  version := some { type := some "latest" }
  customization := some {}

/-- An order containing the pushing position. -/
def orderPushW : Order := { orderid := some "o1", positions := [itPushW] }

/-- An order with no positions. -/
def orderEmptyW : Order := { orderid := some "o2", positions := [] }

end TalosOrder

namespace TalosOrder

/-! ## Supporting lemmas -/

theorem fsLookup_write_self (fs : FS) (p : String) (b : Blob) :
    fsLookup (fsWrite fs p b) p = some b := by
  simp [fsWrite, fsLookup]

theorem fsLookup_write_ne (fs : FS) (p q : String) (b : Blob) (h : p ≠ q) :
    fsLookup (fsWrite fs p b) q = fsLookup fs q := by
  simp [fsWrite, fsLookup, h]

theorem append_sha_ne (s : String) : s ++ ".sha256" ≠ s := by
  intro h
  have h2 : (s ++ ".sha256").data = s.data := congrArg String.data h
  rw [String.data_append] at h2
  have h3 : (s.data ++ ".sha256".data).length = s.data.length := congrArg List.length h2
  rw [List.length_append] at h3
  simp at h3

/-- Unfolding of the semver key at a tag whose core parses. -/
theorem semver_key_wf (t : String) (a b c : Nat) (h : parseCore (coreOf t) = some (a, b, c)) :
    semver_key t =
      ⟨a, b, c, (match preOf t with | some _ => -1 | none => 0), (preOf t).getD ""⟩ := by
  simp only [semver_key]
  rw [h]

/-- Unfolding of the semver key at a tag whose core does not parse. -/
theorem semver_key_malformed (t : String) (h : parseCore (coreOf t) = none) :
    semver_key t =
      ⟨0, 0, 0, (match preOf t with | some p => if p ≠ "" then -1 else 0 | none => 0),
       (preOf t).getD ""⟩ := by
  simp only [semver_key]
  rw [h]

/-! ## Claim theorems -/

/-- C5 counterexample: the claim says every (platform, image_format) pair
outside (nocloud, iso), (nocloud, raw.xz), (metal, iso) fails, but
`build_asset_url` also accepts the nocloud format aliases `raw` and `rawxz`,
returning the `.raw.xz` URL instead of an error. -/
theorem c5_counterexample :
    ("nocloud", "raw") ∉
      ([("nocloud", "iso"), ("nocloud", "raw.xz"), ("metal", "iso")] : List (String × String))
    ∧ build_asset_url "abc" "v1.0.0" "nocloud" "raw" "amd64" false
        = Except.ok "https://factory.talos.dev/image/abc/v1.0.0/nocloud-amd64.raw.xz"
    ∧ build_asset_url "abc" "v1.0.0" "nocloud" "rawxz" "amd64" false
        = Except.ok "https://factory.talos.dev/image/abc/v1.0.0/nocloud-amd64.raw.xz" := by
  refine ⟨by decide, rfl, rfl⟩

/-- C5 (amended): `build_asset_url` returns the nocloud iso URL for
(nocloud, iso), the nocloud `.raw.xz` URL for (nocloud, raw | raw.xz | rawxz),
the metal iso URL for (metal, iso) — each with the `-secureboot` decoration
on nocloud when requested — and fails on every other combination. -/
theorem c5_asset_url_cases (sid v arch : String) (sb : Bool) (p f : String) :
    (p = "nocloud" → f = "iso" →
      build_asset_url sid v p f arch sb
        = Except.ok ("https://factory.talos.dev/image/" ++ sid ++ "/" ++ v ++ "/"
            ++ ("nocloud-" ++ arch ++ (if sb then "-secureboot" else "") ++ ".iso")))
    ∧ (p = "nocloud" → (f = "raw" ∨ f = "raw.xz" ∨ f = "rawxz") →
      build_asset_url sid v p f arch sb
        = Except.ok ("https://factory.talos.dev/image/" ++ sid ++ "/" ++ v ++ "/"
            ++ ("nocloud-" ++ arch ++ (if sb then "-secureboot" else "") ++ ".raw.xz")))
    ∧ (p = "metal" → f = "iso" →
      build_asset_url sid v p f arch sb
        = Except.ok ("https://factory.talos.dev/image/" ++ sid ++ "/" ++ v
            ++ "/metal-" ++ arch ++ ".iso"))
    ∧ (p = "nocloud" → f ∉ (["iso", "raw", "raw.xz", "rawxz"] : List String) →
      build_asset_url sid v p f arch sb
        = Except.error ⟨"ValueError", "unsupported image_format for nocloud (use iso or raw.xz)"⟩)
    ∧ (p ≠ "nocloud" → ¬ (p = "metal" ∧ f = "iso") →
      build_asset_url sid v p f arch sb
        = Except.error ⟨"ValueError", "unsupported platform/image_format combination"⟩) := by
  refine ⟨?_, ?_, ?_, ?_, ?_⟩
  · intro hp hf; subst hp; subst hf; rfl
  · intro hp hf; subst hp
    rcases hf with hf | hf | hf <;> subst hf <;> rfl
  · intro hp hf; subst hp; subst hf; rfl
  · intro hp hf
    subst hp
    have h1 : f ≠ "iso" := by intro e; subst e; exact hf (by decide)
    have h2 : ¬ (f = "raw" ∨ f = "raw.xz" ∨ f = "rawxz") := by
      rintro (e | e | e) <;> subst e <;> exact hf (by decide)
    simp [build_asset_url, if_neg h1, if_neg h2]
  · intro hp hnm
    simp only [build_asset_url]
    rw [if_neg hp, if_neg hnm]

/-- C5 witness: the amended theorem applied at the concrete inputs of the
specification's own examples. -/
theorem c5_witness :
    build_asset_url "abc" "v1.11.0" "nocloud" "raw.xz" "amd64" true
      = Except.ok "https://factory.talos.dev/image/abc/v1.11.0/nocloud-amd64-secureboot.raw.xz"
    ∧ build_asset_url "abc" "v1.11.0" "metal" "raw.xz" "amd64" false
      = Except.error ⟨"ValueError", "unsupported platform/image_format combination"⟩
    ∧ build_asset_url "abc" "v1.11.0" "qemu" "iso" "amd64" false
      = Except.error ⟨"ValueError", "unsupported platform/image_format combination"⟩
    ∧ build_asset_url "abc" "v1.11.0" "nocloud" "vhd" "amd64" false
      = Except.error ⟨"ValueError", "unsupported image_format for nocloud (use iso or raw.xz)"⟩ :=
  ⟨(c5_asset_url_cases "abc" "v1.11.0" "amd64" true "nocloud" "raw.xz").2.1 rfl (Or.inr (Or.inl rfl)),
   (c5_asset_url_cases "abc" "v1.11.0" "amd64" false "metal" "raw.xz").2.2.2.2
     (by decide) (by decide),
   (c5_asset_url_cases "abc" "v1.11.0" "amd64" false "qemu" "iso").2.2.2.2
     (by decide) (by decide),
   (c5_asset_url_cases "abc" "v1.11.0" "amd64" false "nocloud" "vhd").2.2.2.1 rfl (by decide)⟩

/-- C9: for platform metal with format iso, the secure-boot flag is ignored:
both flag values yield the same `metal-<arch>.iso` URL, with no rejection and
no name decoration. -/
theorem c9_metal_ignores_secureboot (sid v arch : String) :
    build_asset_url sid v "metal" "iso" arch true
      = build_asset_url sid v "metal" "iso" arch false
    ∧ build_asset_url sid v "metal" "iso" arch true
      = Except.ok ("https://factory.talos.dev/image/" ++ sid ++ "/" ++ v
          ++ "/metal-" ++ arch ++ ".iso") :=
  ⟨rfl, rfl⟩

/-- C6: for tags sharing a well-formed core, a GA tag's key is strictly
greater than any pre-release tag's key; and on well-formed cores the key
order is consistent with the numeric lexicographic order of
(major, minor, patch). -/
theorem c6_semver_order :
    (∀ A B : String, ∀ a b c : Nat, ∀ p : String,
      preOf A = none → preOf B = some p →
      parseCore (coreOf A) = some (a, b, c) → parseCore (coreOf B) = some (a, b, c) →
      keyLtB (semver_key B) (semver_key A) = true)
    ∧ (∀ A B : String, ∀ a1 b1 c1 a2 b2 c2 : Nat,
      parseCore (coreOf A) = some (a1, b1, c1) → parseCore (coreOf B) = some (a2, b2, c2) →
      (a2 < a1 ∨ (a2 = a1 ∧ (b2 < b1 ∨ (b2 = b1 ∧ c2 < c1)))) →
      keyLtB (semver_key B) (semver_key A) = true) := by
  constructor
  · intro A B a b c p hpA hpB hA hB
    rw [semver_key_wf A a b c hA, semver_key_wf B a b c hB, hpA, hpB]
    simp only [keyLtB]
    split_ifs <;> first | rfl | omega
  · intro A B a1 b1 c1 a2 b2 c2 hA hB hlt
    rw [semver_key_wf A a1 b1 c1 hA, semver_key_wf B a2 b2 c2 hB]
    simp only [keyLtB]
    rcases hlt with h | ⟨e1, h | ⟨e2, h⟩⟩ <;> split_ifs <;> first | rfl | omega

/-- C6 witness: the theorem at the tags v1.2.3 (GA), v1.2.3-beta.1
(pre-release of the same core) and v1.2.2 (numerically smaller core). -/
theorem c6_witness :
    keyLtB (semver_key "v1.2.3-beta.1") (semver_key "v1.2.3") = true
    ∧ keyLtB (semver_key "v1.2.2") (semver_key "v1.2.3") = true :=
  ⟨c6_semver_order.1 "v1.2.3" "v1.2.3-beta.1" 1 2 3 "beta.1"
     (by decide) (by decide) (by decide) (by decide),
   c6_semver_order.2 "v1.2.3" "v1.2.2" 1 2 3 1 2 2 (by decide) (by decide)
     (Or.inr ⟨rfl, Or.inr ⟨rfl, by decide⟩⟩)⟩

/-- C7 counterexample: a tag with an unparsable core does not sort below
every tag with a well-formed core: the malformed tag junk gets the key
(0,0,0,0,"") which is strictly greater than the key of the well-formed
pre-release tag v0.0.0-alpha, so junk sorts above it in newest-first order. -/
theorem c7_counterexample :
    parseCore (coreOf "junk") = none
    ∧ parseCore (coreOf "v0.0.0-alpha") = some (0, 0, 0)
    ∧ keyLtB (semver_key "v0.0.0-alpha") (semver_key "junk") = true := by
  refine ⟨by decide, by decide, by decide⟩

/-- C7 (amended): the key function is total by construction; a tag with an
unparsable core degrades to the minimal core (0,0,0), and therefore sorts
below every tag whose well-formed core exceeds (0,0,0) numerically — but it
can tie with or exceed tags whose core is exactly 0.0.0. -/
theorem c7_semver_total_minimal :
    (∀ t : String, parseCore (coreOf t) = none →
      (semver_key t).major = 0 ∧ (semver_key t).minor = 0 ∧ (semver_key t).patch = 0)
    ∧ (∀ t u : String, ∀ a b c : Nat,
      parseCore (coreOf t) = none → parseCore (coreOf u) = some (a, b, c) →
      (0 < a ∨ (a = 0 ∧ (0 < b ∨ (b = 0 ∧ 0 < c)))) →
      keyLtB (semver_key t) (semver_key u) = true) := by
  constructor
  · intro t ht
    rw [semver_key_malformed t ht]
    exact ⟨rfl, rfl, rfl⟩
  · intro t u a b c ht hu hpos
    rw [semver_key_malformed t ht, semver_key_wf u a b c hu]
    simp only [keyLtB]
    rcases hpos with h | ⟨e1, h | ⟨e2, h⟩⟩ <;> split_ifs <;> first | rfl | omega

/-- A sidecar name is skipped by the grouping scan. -/
theorem scanStep_sha (gs : List (String × List (String × String))) (n : String)
    (h : endsWithStr n ".sha256" = true) : scanStep gs n = gs := by
  simp [scanStep, h]

/-- A listing made only of sidecar names produces no groups. -/
theorem foldl_scanStep_all_sha :
    ∀ (entries : List String) (gs : List (String × List (String × String))),
      (∀ n ∈ entries, endsWithStr n ".sha256" = true) →
      entries.foldl scanStep gs = gs := by
  intro entries
  induction entries with
  | nil => intro gs _; rfl
  | cons x xs ih =>
    intro gs h
    simp only [List.foldl_cons]
    rw [scanStep_sha gs x (h x (by simp))]
    exact ih gs (fun n hn => h n (by simp [hn]))

/-- C3: the cleanup plan for keepN = 0 is empty; on the specification's
three-version family with keepN = 2 it selects exactly the oldest artifact
plus its sidecar; and a listing consisting only of `.sha256` sidecars yields
an empty plan for every keepN (sidecars are never grouped as families). -/
theorem c3_cache_cleanup_plan :
    (∀ (dir : String) (entries : List String), plan_cache_cleanup dir entries 0 = [])
    ∧ plan_cache_cleanup "/cache"
        ["talos-v1.2.0-nocloud-amd64.iso", "talos-v1.2.0-nocloud-amd64.iso.sha256",
         "talos-v1.3.0-nocloud-amd64.iso", "talos-v1.3.0-nocloud-amd64.iso.sha256",
         "talos-v1.1.0-nocloud-amd64.iso", "talos-v1.1.0-nocloud-amd64.iso.sha256"] 2
      = ["/cache/talos-v1.1.0-nocloud-amd64.iso",
         "/cache/talos-v1.1.0-nocloud-amd64.iso.sha256"]
    ∧ (∀ (dir : String) (entries : List String) (k : Int),
        (∀ n ∈ entries, endsWithStr n ".sha256" = true) →
        plan_cache_cleanup dir entries k = []) := by
  refine ⟨fun dir entries => rfl, by decide, ?_⟩
  intro dir entries k h
  by_cases hk : k ≤ 0
  · simp [plan_cache_cleanup, hk]
  · simp [plan_cache_cleanup, hk, scanGroups, foldl_scanStep_all_sha entries [] h]

/-- C3 witness: the sidecar-only clause of the theorem at a concrete listing,
together with the evaluated keepN = 0 clause. -/
theorem c3_witness :
    plan_cache_cleanup "/c" ["talos-v1.0.0-a.iso.sha256", "b.sha256"] 5 = [] :=
  c3_cache_cleanup_plan.2.2 "/c" ["talos-v1.0.0-a.iso.sha256", "b.sha256"] 5 (by decide)

/-- C10: a missing version specification, or one without a type field, is
resolved through the latest branch (querying the latest-release endpoint),
not rejected; only an explicitly unknown type value fails with ValueError. -/
theorem c10_default_version_latest :
    (∀ env : Env, resolve_version env none = latest_branch env)
    ∧ (∀ (env : Env) (s : VSpec), s.type = none →
        resolve_version env (some s) = latest_branch env)
    ∧ (∀ (env : Env) (s : VSpec) (t : String), s.type = some t →
        t ≠ "exact" → t ≠ "latest" → t ≠ "latest-in-minor" →
        resolve_version env (some s)
          = (.error ⟨"ValueError", "Unknown version.type: " ++ t⟩, [])) := by
  refine ⟨fun env => rfl, ?_, ?_⟩
  · intro env s h
    simp only [resolve_version, Option.getD_some, h]
    rfl
  · intro env s t h h1 h2 h3
    simp only [resolve_version, Option.getD_some, h]
    rw [if_neg h1, if_neg h2, if_neg h3]

/-- C10 witness: the theorem at a spec with no type field and at a spec with
the unknown type weird, against the concrete environment. -/
theorem c10_witness :
    resolve_version envW (some { value := some "v1" })
      = (.ok ("v1.8.0", "latest"), [Event.netGet GITHUB_LATEST])
    ∧ resolve_version envW (some { type := some "weird" })
      = (.error ⟨"ValueError", "Unknown version.type: weird"⟩, []) := by
  constructor
  · rw [c10_default_version_latest.2.1 envW { value := some "v1" } rfl]; rfl
  · rw [c10_default_version_latest.2.2 envW { type := some "weird" } "weird" rfl
      (by decide) (by decide) (by decide)]
    rfl

/-- C4: when the local file exists with positive size, fetching performs no
network transfer and only rewrites the sidecar; every successful fetch
recomputes the checksum from the bytes on disk and persists it to the
sidecar; hence fetching twice with the file present performs zero transfers
both times and yields the same checksum. -/
theorem c4_fetch_idempotent :
    (∀ (env : Env) (url p : String) (fs : FS) (b : Blob),
      fsLookup fs p = some b → 0 < b.length →
      fetchVerify env url p fs =
        (.ok (false, env.hash b, b.length),
         fsWrite fs (p ++ ".sha256") (strBlob (env.hash b ++ "\n")),
         [Event.writeFile (p ++ ".sha256")]))
    ∧ (∀ (env : Env) (url p : String) (fs : FS) (r : Bool × String × Nat) (fs' : FS)
        (tr : List Event),
        fetchVerify env url p fs = (.ok r, fs', tr) →
        fsLookup fs' (p ++ ".sha256") = some (strBlob (r.2.1 ++ "\n"))
        ∧ ∃ bb, fsLookup fs' p = some bb ∧ r.2.1 = env.hash bb ∧ r.2.2 = bb.length)
    ∧ (∀ (env : Env) (url p : String) (fs : FS) (b : Blob),
        fsLookup fs p = some b → 0 < b.length →
        (fetchVerify env url p fs).1 = .ok (false, env.hash b, b.length)
        ∧ (fetchVerify env url p ((fetchVerify env url p fs).2.1)).1
            = .ok (false, env.hash b, b.length)
        ∧ Event.downloadEv url p ∉ (fetchVerify env url p fs).2.2
        ∧ Event.downloadEv url p ∉
            (fetchVerify env url p ((fetchVerify env url p fs).2.1)).2.2) := by
  have hcached : ∀ (env : Env) (url p : String) (fs : FS) (b : Blob),
      fsLookup fs p = some b → 0 < b.length →
      fetchVerify env url p fs =
        (.ok (false, env.hash b, b.length),
         fsWrite fs (p ++ ".sha256") (strBlob (env.hash b ++ "\n")),
         [Event.writeFile (p ++ ".sha256")]) := by
    intro env url p fs b h hb
    simp [fetchVerify, h, hb]
  refine ⟨hcached, ?_, ?_⟩
  · intro env url p fs r fs' tr h
    rcases hl : fsLookup fs p with _ | b
    · -- the file is absent: only the download branch can return ok
      by_cases hok : env.fetchOk url
      · have h2 : fetchVerify env url p fs =
            (.ok (true, env.hash (env.blob url), (env.blob url).length),
             fsWrite (fsWrite fs p (env.blob url)) (p ++ ".sha256")
               (strBlob (env.hash (env.blob url) ++ "\n")),
             [Event.mkdirEv (dirname p), Event.downloadEv url p,
              Event.writeFile p, Event.writeFile (p ++ ".sha256")]) := by
          simp [fetchVerify, hl, hok]
        rw [h2] at h
        injection h with h3 h45
        injection h45 with h4 h5
        injection h3 with hr
        subst hr
        subst h4
        refine ⟨fsLookup_write_self .., ⟨env.blob url, ?_, rfl, rfl⟩⟩
        rw [fsLookup_write_ne _ _ _ _ (append_sha_ne p)]
        exact fsLookup_write_self ..
      · have h2 : fetchVerify env url p fs = (.error ⟨"HTTPError", url⟩, fs,
            [Event.mkdirEv (dirname p), Event.downloadEv url p]) := by
          simp [fetchVerify, hl, hok]
        rw [h2] at h
        injection h with h3 h45
        exact absurd h3 (by simp)
    · by_cases hb : 0 < b.length
      · have h2 := hcached env url p fs b hl hb
        rw [h2] at h
        injection h with h3 h45
        injection h45 with h4 h5
        injection h3 with hr
        subst hr
        subst h4
        refine ⟨fsLookup_write_self .., ⟨b, ?_, rfl, rfl⟩⟩
        rw [fsLookup_write_ne _ _ _ _ (append_sha_ne p)]
        exact hl
      · by_cases hok : env.fetchOk url
        · have h2 : fetchVerify env url p fs =
              (.ok (true, env.hash (env.blob url), (env.blob url).length),
               fsWrite (fsWrite fs p (env.blob url)) (p ++ ".sha256")
                 (strBlob (env.hash (env.blob url) ++ "\n")),
               [Event.mkdirEv (dirname p), Event.downloadEv url p,
                Event.writeFile p, Event.writeFile (p ++ ".sha256")]) := by
            simp [fetchVerify, hl, hb, hok]
          rw [h2] at h
          injection h with h3 h45
          injection h45 with h4 h5
          injection h3 with hr
          subst hr
          subst h4
          refine ⟨fsLookup_write_self .., ⟨env.blob url, ?_, rfl, rfl⟩⟩
          rw [fsLookup_write_ne _ _ _ _ (append_sha_ne p)]
          exact fsLookup_write_self ..
        · have h2 : fetchVerify env url p fs = (.error ⟨"HTTPError", url⟩, fs,
              [Event.mkdirEv (dirname p), Event.downloadEv url p]) := by
            simp [fetchVerify, hl, hb, hok]
          rw [h2] at h
          injection h with h3 h45
          exact absurd h3 (by simp)
  · intro env url p fs b h hb
    have h1 := hcached env url p fs b h hb
    have hpres : fsLookup ((fetchVerify env url p fs).2.1) p = some b := by
      rw [h1]
      simpa [fsLookup_write_ne _ _ _ _ (append_sha_ne p)] using h
    have h2 := hcached env url p ((fetchVerify env url p fs).2.1) b hpres hb
    refine ⟨by rw [h1], by rw [h2], by rw [h1]; simp, by rw [h2]; simp⟩

/-- C4 witness: the cached-file clauses of the theorem at a concrete
filesystem holding a two-byte file. -/
theorem c4_witness :
    (fetchVerify envW "u" "/c/f" [("/c/f", [9, 9])]).1 = .ok (false, "xx", 2)
    ∧ (fetchVerify envW "u" "/c/f"
        ((fetchVerify envW "u" "/c/f" [("/c/f", [9, 9])]).2.1)).1 = .ok (false, "xx", 2)
    ∧ Event.downloadEv "u" "/c/f" ∉ (fetchVerify envW "u" "/c/f" [("/c/f", [9, 9])]).2.2
    ∧ Event.downloadEv "u" "/c/f" ∉
        (fetchVerify envW "u" "/c/f"
          ((fetchVerify envW "u" "/c/f" [("/c/f", [9, 9])]).2.1)).2.2 :=
  c4_fetch_idempotent.2.2 envW "u" "/c/f" [("/c/f", [9, 9])] [9, 9] rfl (by decide)

/-- The cons equation of the batch loop. -/
theorem positionsLoop_cons (env : Env) (cfg : Defaults) (dry : Bool) (it : Item)
    (rest : List Item) (fs : FS) :
    positionsLoop env cfg dry (it :: rest) fs
      = ((itemStep env cfg dry it fs).1.toList
           ++ (positionsLoop env cfg dry rest (itemStep env cfg dry it fs).2.1).1,
         (positionsLoop env cfg dry rest (itemStep env cfg dry it fs).2.1).2.1,
         (itemStep env cfg dry it fs).2.2
           ++ (positionsLoop env cfg dry rest (itemStep env cfg dry it fs).2.1).2.2) := rfl

/-- Version resolution only performs read-only HTTP GETs. -/
theorem resolve_version_events (env : Env) (spec : Option VSpec) :
    ((resolve_version env spec).2.all fun e => !e.isMutating) = true := by
  simp only [resolve_version, latest_branch]
  repeat' split
  all_goals rfl

/-- In a dry run the schematic step emits no events (the factory POST is
replaced by the placeholder). -/
theorem schematicStep_dry (env : Env) (it : Item) :
    (schematicStep env true it).2 = [] := by
  simp only [schematicStep]
  by_cases hf : falsyS it.schematic_id = true
  · rw [if_pos hf]
    cases it.customization <;> rfl
  · rw [if_neg hf]

/-- In a dry run one position leaves the filesystem unchanged, emits only
non-mutating events, and is skipped exactly when its product is not talos. -/
theorem process_one_dry (env : Env) (cfg : Defaults) (it : Item) (fs : FS)
    (out : Outcome) (fs' : FS) (tr : List Event)
    (h : process_one env cfg true it fs = (out, fs', tr)) :
    fs' = fs ∧ (tr.all fun e => !e.isMutating) = true
    ∧ (out = .skipped ↔ isTalosItem it = false) := by
  simp only [process_one] at h
  by_cases ht : isTalosItem it = true
  · rw [if_neg (by simp [ht])] at h
    have hresolve := resolve_version_events env it.version
    have hsch := schematicStep_dry env it
    rcases hres : resolve_version env it.version with ⟨res, tr1⟩
    rw [hres] at h hresolve
    simp only at hresolve
    cases res with
    | error e =>
      simp only at h
      injection h with h1 h23
      injection h23 with h2 h3
      subst h1; subst h2; subst h3
      exact ⟨rfl, hresolve, by simp [ht]⟩
    | ok vs =>
      rcases hsc : schematicStep env true it with ⟨scres, tr2⟩
      rw [hsc] at h hsch
      simp only at hsch
      subst hsch
      cases scres with
      | error e =>
        simp only at h
        injection h with h1 h23
        injection h23 with h2 h3
        subst h1; subst h2; subst h3
        refine ⟨rfl, ?_, by simp [ht]⟩
        rw [List.all_append, hresolve]
        rfl
      | ok sid =>
        simp only at h
        cases hurl : build_asset_url sid vs.1 (it.platform.getD "nocloud")
            (it.image_format.getD "iso") (it.arch.getD (cfg.arch.getD "amd64"))
            it.secureboot with
        | error e =>
          rw [hurl] at h
          simp only at h
          injection h with h1 h23
          injection h23 with h2 h3
          subst h1; subst h2; subst h3
          refine ⟨rfl, ?_, by simp [ht]⟩
          rw [List.all_append, hresolve]
          rfl
        | ok url =>
          rw [hurl] at h
          simp only [if_pos rfl] at h
          injection h with h1 h23
          injection h23 with h2 h3
          subst h1; subst h2; subst h3
          refine ⟨rfl, ?_, by simp [ht]⟩
          rw [List.all_append, List.all_append, hresolve]
          rfl
  · rw [if_pos ht] at h
    injection h with h1 h23
    injection h23 with h2 h3
    subst h1; subst h2; subst h3
    simp only [Bool.not_eq_true] at ht
    simp [ht]

/-- In a dry run the whole batch loop leaves the filesystem unchanged, emits
only non-mutating events, and yields exactly one entry per talos item. -/
theorem positionsLoop_dry (env : Env) (cfg : Defaults) :
    ∀ (ps : List Item) (fs : FS),
      (positionsLoop env cfg true ps fs).2.1 = fs
      ∧ ((positionsLoop env cfg true ps fs).2.2.all fun e => !e.isMutating) = true
      ∧ (positionsLoop env cfg true ps fs).1.length = (ps.filter isTalosItem).length := by
  intro ps
  induction ps with
  | nil => intro fs; exact ⟨rfl, rfl, rfl⟩
  | cons it rest ih =>
    intro fs
    rcases hit : process_one env cfg true it fs with ⟨out, fs1, tr1⟩
    obtain ⟨hfs, htr, hsk⟩ := process_one_dry env cfg it fs out fs1 tr1 hit
    have hstep2 : (itemStep env cfg true it fs).2 = (fs1, tr1) := by
      simp only [itemStep, hit]
      cases out <;> rfl
    have hstep1 : (itemStep env cfg true it fs).1.isSome = isTalosItem it := by
      simp only [itemStep, hit]
      cases out with
      | skipped => simp [hsk.mp rfl]
      | entry e =>
        have htal : isTalosItem it = true := by
          cases htal2 : isTalosItem it with
          | false => exact absurd (hsk.mpr htal2) (by simp)
          | true => rfl
        simp [htal]
      | failed e =>
        have htal : isTalosItem it = true := by
          cases htal2 : isTalosItem it with
          | false => exact absurd (hsk.mpr htal2) (by simp)
          | true => rfl
        simp [htal]
    rw [positionsLoop_cons, hstep2]
    obtain ⟨ih1, ih2, ih3⟩ := ih fs1
    simp only
    refine ⟨by rw [ih1, hfs], ?_, ?_⟩
    · rw [List.all_append, htr, ih2]
      rfl
    · rw [List.length_append, ih3]
      cases hopt : (itemStep env cfg true it fs).1 with
      | none =>
        have htal : isTalosItem it = false := by rw [← hstep1, hopt]; rfl
        simp [List.filter_cons, htal]
      | some v =>
        have htal : isTalosItem it = true := by rw [← hstep1, hopt]; rfl
        simp [List.filter_cons, htal]
        omega

/-- The tool precheck never fires in a dry run. -/
theorem toolAbort_dry (env : Env) (cfg : Defaults) (ps : List Item) :
    toolAbort env cfg true ps = false := by
  simp [toolAbort]

/-- C8 counterexample: planning-only mode does perform remote calls: with an
item whose version type is latest, the dry-run trace of the batch contains
the read-only GET of the latest-release endpoint — contradicting the claim
that dry-run processing performs no remote calls. -/
theorem c8_counterexample :
    Event.netGet GITHUB_LATEST ∈ (process_positions envW {} true [itDryW] []).2.2 := by
  decide

/-- C8 (amended): in planning-only mode the batch performs no mutating
effect — the filesystem is returned unchanged (so nothing is written under
the cache directory), the trace holds only non-mutating events (no
downloads, no factory POST, no file writes, no deletions, no remote host
actions — read-only version-resolution GETs may still occur) — the loop
still succeeds with exactly one projected entry per talos item, and the
schematic step substitutes the placeholder id instead of creating a remote
build artifact. -/
theorem c8_dry_run_effects :
    (∀ (env : Env) (cfg : Defaults) (ps : List Item) (fs : FS),
      (process_positions env cfg true ps fs).2.1 = fs
      ∧ ((process_positions env cfg true ps fs).2.2.all fun e => !e.isMutating) = true
      ∧ (process_positions env cfg true ps fs).1 = .ok (positionsLoop env cfg true ps fs).1
      ∧ (positionsLoop env cfg true ps fs).1.length = (ps.filter isTalosItem).length)
    ∧ (∀ (env : Env) (it : Item),
        falsyS it.schematic_id = true → it.customization.isSome →
        schematicStep env true it = (.ok "<to-be-created>", [])) := by
  constructor
  · intro env cfg ps fs
    obtain ⟨h1, h2, h3⟩ := positionsLoop_dry env cfg ps fs
    have hpp : process_positions env cfg true ps fs
        = (.ok (positionsLoop env cfg true ps fs).1,
           (positionsLoop env cfg true ps fs).2.1,
           Event.mkdirEv (cacheDirOf cfg) :: (positionsLoop env cfg true ps fs).2.2) := by
      simp [process_positions, toolAbort_dry]
    rw [hpp]
    exact ⟨h1, by simp at h2 ⊢; exact ⟨rfl, h2⟩, rfl, h3⟩
  · intro env it h1 h2
    obtain ⟨c, hc⟩ := Option.isSome_iff_exists.mp h2
    simp [schematicStep, h1, hc]

/-- C8 witness: the placeholder clause of the amended theorem at the
concrete latest-version item, plus the evaluated no-mutation clause of the
same dry-run batch. -/
theorem c8_witness :
    schematicStep envW true itDryW = (.ok "<to-be-created>", [])
    ∧ (process_positions envW {} true [itDryW] []).2.1 = [] := by
  constructor
  · exact c8_dry_run_effects.2 envW itDryW rfl rfl
  · exact (c8_dry_run_effects.1 envW {} [itDryW] []).1

/-- C2: when the push-tool precheck does not fire, the batch loop returns
normally (no exception escapes it); any position whose processing fails is
converted at the item boundary into an error entry carrying the position
name and the exception class and message; and the loop always continues with
the remaining positions, each processed from the state the previous one
left. -/
theorem c2_item_failure_isolation :
    (∀ (env : Env) (cfg : Defaults) (dry : Bool) (ps : List Item) (fs : FS),
      toolAbort env cfg dry ps = false →
      process_positions env cfg dry ps fs
        = (.ok (positionsLoop env cfg dry ps fs).1,
           (positionsLoop env cfg dry ps fs).2.1,
           Event.mkdirEv (cacheDirOf cfg) :: (positionsLoop env cfg dry ps fs).2.2))
    ∧ (∀ (env : Env) (cfg : Defaults) (dry : Bool) (it : Item) (fs : FS) (err : Err)
        (fs' : FS) (tr : List Event),
        process_one env cfg dry it fs = (.failed err, fs', tr) →
        itemStep env cfg dry it fs
          = (some (.posError (posName it)
              ("position failed: " ++ err.cls ++ ": " ++ err.msg)), fs', tr))
    ∧ (∀ (env : Env) (cfg : Defaults) (dry : Bool) (it : Item) (rest : List Item) (fs : FS),
        positionsLoop env cfg dry (it :: rest) fs
          = ((itemStep env cfg dry it fs).1.toList
               ++ (positionsLoop env cfg dry rest (itemStep env cfg dry it fs).2.1).1,
             (positionsLoop env cfg dry rest (itemStep env cfg dry it fs).2.1).2.1,
             (itemStep env cfg dry it fs).2.2
               ++ (positionsLoop env cfg dry rest (itemStep env cfg dry it fs).2.1).2.2)) := by
  refine ⟨?_, ?_, ?_⟩
  · intro env cfg dry ps fs h
    simp [process_positions, h]
  · intro env cfg dry it fs err fs' tr h
    simp [itemStep, h]
  · intro env cfg dry it rest fs
    rfl

/-- C2 witness: the conversion clause of the theorem at a position whose
version specification is invalid (exact without value), which raises
ValueError inside the item and yields the corresponding error entry. -/
theorem c2_witness :
    itemStep envW {} false itBadW []
      = (some (.posError "bad"
          "position failed: ValueError: version.type=exact requires version.value"), [], []) :=
  c2_item_failure_isolation.2.1 envW {} false itBadW []
    ⟨"ValueError", "version.type=exact requires version.value"⟩ [] [] (by decide)

/-- C1 counterexample: with rsync absent and a batch requesting a push, the
run is not aborted: the precheck failure is caught at the order boundary in
main, recorded as a per-order error entry in that order's manifest, and the
remaining orders are still processed — contradicting the claim that the
failure aborts the whole run rather than surfacing as a per-order error
entry. -/
theorem c1_counterexample :
    (process_orders envNoRsync {} false [orderPushW, orderEmptyW] []).1
      = .ok [⟨"o1", "", 1,
              [Entry.orderError "order failed: RuntimeError: Missing dependency: rsync"]⟩,
             ⟨"o2", "", 0, []⟩] := by
  decide

/-- C1 (amended): when some item requests a push, the run is live and a tool
is missing, `process_positions` raises before any item begins (the
filesystem is untouched and the trace holds only the cache-dir mkdir, so no
download, push or per-host action happened); main catches that exception at
the order boundary, records it as a single order-level error entry in the
manifest of that order, and continues with the remaining orders. -/
theorem c1_tool_check_order_scope :
    (∀ (env : Env) (cfg : Defaults) (ps : List Item) (fs : FS),
      toolAbort env cfg false ps = true →
      process_positions env cfg false ps fs
        = (.error ⟨"RuntimeError", (ensure_tools_for_push env).2⟩, fs,
           [Event.mkdirEv (cacheDirOf cfg)]))
    ∧ (∀ (env : Env) (cfg : Defaults) (dry : Bool) (o : Order) (rest : List Order)
        (fs : FS) (e : Err),
        pyStrip (o.orderid.getD "") ≠ "" →
        (process_positions env cfg dry o.positions fs).1 = .error e →
        (process_orders env cfg dry (o :: rest) fs).1
          = (match (process_orders env cfg dry rest
                (process_positions env cfg dry o.positions fs).2.1).1 with
             | .ok ms => .ok (⟨pyStrip (o.orderid.getD ""), o.customer.getD "",
                 o.positions.length,
                 [Entry.orderError ("order failed: " ++ e.cls ++ ": " ++ e.msg)]⟩ :: ms)
             | .error e2 => .error e2)) := by
  constructor
  · intro env cfg ps fs h
    simp [process_positions, h]
  · intro env cfg dry o rest fs e h1 h2
    rcases hpr : process_positions env cfg dry o.positions fs with ⟨res, fs1, tr1⟩
    rw [hpr] at h2
    simp only at h2
    subst h2
    rcases hrec : process_orders env cfg dry rest fs1 with ⟨rres, fs2, tr2⟩
    cases rres with
    | ok ms =>
      simp only [process_orders, if_neg h1, hpr, hrec]
    | error e2 =>
      simp only [process_orders, if_neg h1, hpr, hrec]

/-- C1 witness: both clauses of the amended theorem at the concrete
no-rsync world: the abort inside `process_positions` before any item, and
the conversion plus continuation in the order loop. -/
theorem c1_witness :
    process_positions envNoRsync {} false [itPushW] []
      = (.error ⟨"RuntimeError", "Missing dependency: rsync"⟩, [],
         [Event.mkdirEv "/var/cache/talos-sync"])
    ∧ (process_orders envNoRsync {} false [orderPushW, orderEmptyW] []).1
      = .ok [⟨"o1", "", 1,
              [Entry.orderError "order failed: RuntimeError: Missing dependency: rsync"]⟩,
             ⟨"o2", "", 0, []⟩] := by
  constructor
  · exact c1_tool_check_order_scope.1 envNoRsync {} [itPushW] [] (by decide)
  · rw [c1_tool_check_order_scope.2 envNoRsync {} false orderPushW [orderEmptyW] []
      ⟨"RuntimeError", "Missing dependency: rsync"⟩ (by decide) (by decide)]
    decide

/-- C7 witness: the amended theorem at the malformed tag junk against
v1.0.0, whose core exceeds (0,0,0). -/
theorem c7_witness :
    ((semver_key "junk").major = 0 ∧ (semver_key "junk").minor = 0
      ∧ (semver_key "junk").patch = 0)
    ∧ keyLtB (semver_key "junk") (semver_key "v1.0.0") = true :=
  ⟨c7_semver_total_minimal.1 "junk" (by decide),
   c7_semver_total_minimal.2 "junk" "v1.0.0" 1 0 0 (by decide) (by decide)
     (Or.inl (by decide))⟩

end TalosOrder
